import Mathlib

/-!
Shallow embedding of `src/rabbit.py` (Pi2000-HiT): a FLEX pager decoder
supervisor that parses decoded lines and publishes them to a RabbitMQ queue.

The embedding covers:
* the pure parsing function `parse_flex_line`, including a faithful model of
  the two case-insensitive regular-expression searches it performs
  (`\b(A[1-2]|B1|P[1-3]|PRIO\s?[1-5])\b` and `\bGRIP\s?([1-4])\b`) as
  leftmost-first backtracking matchers over lists of characters;
* the backoff computation `min(30, fail_counter * 3)`;
* the control loop of `main` (together with `connect_rabbit`), given as a
  deterministic small-step interpreter over the points where the script
  samples its `running` flag, with all impure observations (flag samples,
  connection attempts, stream reads, publish outcomes, liveness polls)
  supplied by an explicit environment.

Characters are treated at ASCII granularity (the patterns, the banner and the
delimiters in the script are all ASCII); `uuid.uuid4()` and the wall-clock
capture time are impure reads and enter `parse_flex_line` as arguments.
-/

namespace Pi2000

/-! ### Character classes used by the regular expressions -/

/-- ASCII lower-casing on character codes: `A`–`Z` (65–90) map 32 up, all else
fixed.  This is the case folding `re.I` applies to the ASCII letters appearing
in the patterns of `parse_flex_line`. -/
def lcn (n : Nat) : Nat := if 65 ≤ n ∧ n ≤ 90 then n + 32 else n

/-- The case-folded code of a character; two characters are case-variants
exactly when their keys agree. -/
def key (c : Char) : Nat := lcn c.toNat

/-- A regex word character (`\w`): ASCII letter, digit or underscore. -/
def wordCharN (n : Nat) : Bool :=
  decide ((48 ≤ n ∧ n ≤ 57) ∨ (65 ≤ n ∧ n ≤ 90) ∨ (97 ≤ n ∧ n ≤ 122) ∨ n = 95)

/-- `\w` on characters. -/
def isWordChar (c : Char) : Bool := wordCharN c.toNat

/-- `\s` (ASCII): space, tab, newline, carriage return, vertical tab, form feed. -/
def spaceN (n : Nat) : Bool :=
  decide (n = 32 ∨ n = 9 ∨ n = 10 ∨ n = 13 ∨ n = 11 ∨ n = 12)

/-- `\s` on characters. -/
def isSpaceChar (c : Char) : Bool := spaceN c.toNat

/-- Digit range `[1-2]`. -/
def dig12N (n : Nat) : Bool := decide (49 ≤ n ∧ n ≤ 50)

/-- Digit range `[1-3]`. -/
def dig13N (n : Nat) : Bool := decide (49 ≤ n ∧ n ≤ 51)

/-- Digit range `[1-4]`. -/
def dig14N (n : Nat) : Bool := decide (49 ≤ n ∧ n ≤ 52)

/-- Digit range `[1-5]`. -/
def dig15N (n : Nat) : Bool := decide (49 ≤ n ∧ n ≤ 53)

/-- The `\b` assertion between two adjacent positions: word-character status
differs across the boundary (the outside of the string is not a word
character). -/
def wordBoundary (a b : Option Char) : Bool :=
  (match a with | none => false | some c => isWordChar c) !=
  (match b with | none => false | some c => isWordChar c)

/-- The trailing `\b` after an alternative that ends in a word character:
the remainder must not begin with a word character. -/
def endBoundary : List Char → Bool
  | [] => true
  | c :: _ => !(isWordChar c)

/-! ### The priority pattern `\b(A[1-2]|B1|P[1-3]|PRIO\s?[1-5])\b` (`re.I`) -/

/-- Alternative `A[1-2]` with the trailing word boundary; returns the matched
prefix and the rest. -/
def altA (l : List Char) : Option (List Char × List Char) :=
  match l with
  | c1 :: c2 :: rest =>
    if key c1 = 97 ∧ dig12N c2.toNat ∧ endBoundary rest then
      some ([c1, c2], rest)
    else none
  | _ => none

/-- Alternative `B1` with the trailing word boundary. -/
def altB (l : List Char) : Option (List Char × List Char) :=
  match l with
  | c1 :: c2 :: rest =>
    if key c1 = 98 ∧ c2.toNat = 49 ∧ endBoundary rest then
      some ([c1, c2], rest)
    else none
  | _ => none

/-- Alternative `P[1-3]` with the trailing word boundary. -/
def altP (l : List Char) : Option (List Char × List Char) :=
  match l with
  | c1 :: c2 :: rest =>
    if key c1 = 112 ∧ dig13N c2.toNat ∧ endBoundary rest then
      some ([c1, c2], rest)
    else none
  | _ => none

/-- Alternative `PRIO\s?[1-5]` with the trailing word boundary.  `\s?` is
greedy: the engine first tries to consume one whitespace character before the
digit and falls back to the bare digit. -/
def altPrioNum (l : List Char) : Option (List Char × List Char) :=
  match l with
  | p :: r :: i :: o :: rest =>
    if key p = 112 ∧ key r = 114 ∧ key i = 105 ∧ key o = 111 then
      match rest with
      | c :: d :: rest2 =>
        if isSpaceChar c ∧ dig15N d.toNat ∧ endBoundary rest2 then
          some ([p, r, i, o, c, d], rest2)
        else if dig15N c.toNat ∧ endBoundary (d :: rest2) then
          some ([p, r, i, o, c], d :: rest2)
        else none
      | [c] => if dig15N c.toNat then some ([p, r, i, o, c], []) else none
      | [] => none
    else none
  | _ => none

/-- The full alternation tried at one position, in the pattern's order. -/
def prioAlts (l : List Char) : Option (List Char × List Char) :=
  match altA l with
  | some m => some m
  | none =>
    match altB l with
    | some m => some m
    | none =>
      match altP l with
      | some m => some m
      | none => altPrioNum l

/-- `re.search`: try each position left to right; at a position the leading
`\b` must hold between the previous character and the current one. -/
def searchPrioFrom (prev : Option Char) (l : List Char) : Option (List Char) :=
  match l with
  | [] => none
  | c :: rest =>
    if wordBoundary prev (some c) then
      match prioAlts (c :: rest) with
      | some (m, _) => some m
      | none => searchPrioFrom (some c) rest
    else searchPrioFrom (some c) rest

/-- `re.search(r'\b(A[1-2]|B1|P[1-3]|PRIO\s?[1-5])\b', s, re.I)`, capturing the
matched text (`group(0)`) verbatim, `none` when nothing matches. -/
def prioExtract (s : String) : Option String :=
  (searchPrioFrom none s.data).map fun m => String.mk m

/-! ### The escalation pattern `\bGRIP\s?([1-4])\b` (`re.I`) -/

/-- The `GRIP\s?([1-4])` body with the trailing word boundary; returns the
captured digit and the rest. -/
def altGrip (l : List Char) : Option (Char × List Char) :=
  match l with
  | g :: r :: i :: p :: rest =>
    if key g = 103 ∧ key r = 114 ∧ key i = 105 ∧ key p = 112 then
      match rest with
      | c :: d :: rest2 =>
        if isSpaceChar c ∧ dig14N d.toNat ∧ endBoundary rest2 then
          some (d, rest2)
        else if dig14N c.toNat ∧ endBoundary (d :: rest2) then
          some (c, d :: rest2)
        else none
      | [c] => if dig14N c.toNat then some (c, []) else none
      | [] => none
    else none
  | _ => none

/-- `re.search` for the GRIP pattern, returning the captured digit. -/
def searchGripFrom (prev : Option Char) (l : List Char) : Option Char :=
  match l with
  | [] => none
  | c :: rest =>
    if wordBoundary prev (some c) then
      match altGrip (c :: rest) with
      | some (d, _) => some d
      | none => searchGripFrom (some c) rest
    else searchGripFrom (some c) rest

/-- `re.search(r'\bGRIP\s?([1-4])\b', s, re.I)` normalised to
`f"GRIP {digit}"`, `none` when nothing matches. -/
def gripExtract (s : String) : Option String :=
  (searchGripFrom none s.data).map fun d => String.mk ['G', 'R', 'I', 'P', ' ', d]

/-! ### Python string primitives

The Python string operations used by `rabbit.py` (`split('|')`, `split()`,
`strip()`, `'|'.join`, `startswith`) are modelled by structural recursion on
lists of characters, at ASCII granularity. -/

/-- Split at every character satisfying `p`, keeping empty pieces (the
behaviour of Python `str.split(sep)` for a one-character separator when `p`
recognises exactly that character).  `acc` holds the current piece
reversed. -/
def splitPredAux (p : Char → Bool) : List Char → List Char → List (List Char)
  | [], acc => [acc.reverse]
  | c :: rest, acc =>
    if p c then acc.reverse :: splitPredAux p rest []
    else splitPredAux p rest (c :: acc)

/-- Python `line.split('|')`. -/
def splitPipe (l : List Char) : List (List Char) :=
  splitPredAux (fun c => c = '|') l []

/-- Python `str.strip()` with no argument: drop leading and trailing
whitespace. -/
def pyStrip (l : List Char) : List Char :=
  ((l.dropWhile isSpaceChar).reverse.dropWhile isSpaceChar).reverse

/-- Python `'|'.join(pieces)`. -/
def joinPipe : List (List Char) → List Char
  | [] => []
  | [x] => x
  | x :: y :: rest => x ++ '|' :: joinPipe (y :: rest)

/-- Python `str.split()` with no argument: split on whitespace and drop the
empty pieces. -/
def pySplitWs (l : List Char) : List (List Char) :=
  (splitPredAux isSpaceChar l []).filter fun t => t ≠ []

/-- Python `a.startswith(b)`. -/
def leadsWith : List Char → List Char → Bool
  | [], _ => true
  | _ :: _, [] => false
  | b :: bs, a :: as => b = a && leadsWith bs as

/-! ### `parse_flex_line` -/

/-- The `data` sub-object of a parsed record. -/
structure FlexData where
  message : String
  prio : Option String
  grip : Option String
  capcodes : List String
deriving DecidableEq, Repr

/-- The full record built by `parse_flex_line`. -/
structure FlexMsg where
  id : String
  protocol : String
  timestamp_unix : Int
  timestamp_iso : String
  raw_flex_timestamp : Option String
  raw : String
  data : FlexData
deriving DecidableEq, Repr

/-- `parse_flex_line(line)`.  The fresh `uuid.uuid4()` and the wall-clock
capture time are impure reads of the call's surroundings; they enter the
embedding as the explicit arguments `freshId`, `nowUnix` and `nowIso`. -/
def parse_flex_line (freshId : String) (nowUnix : Int) (nowIso : String)
    (line : String) : FlexMsg :=
  let parts := splitPipe line.data
  if parts.length < 7 then
    { id := freshId, protocol := "FLEX", timestamp_unix := nowUnix,
      timestamp_iso := nowIso, raw_flex_timestamp := none, raw := line,
      data := { message := line, prio := none, grip := none, capcodes := [] } }
  else
    let timestamp_raw := String.mk (parts.getD 1 [])
    let message_text := pyStrip (joinPipe (parts.drop 5))
    let capcodes :=
      if pyStrip (parts.getD 4 []) ≠ [] then
        (pySplitWs (parts.getD 4 [])).map String.mk
      else []
    { id := freshId, protocol := "FLEX", timestamp_unix := nowUnix,
      timestamp_iso := nowIso, raw_flex_timestamp := some timestamp_raw,
      raw := line,
      data := { message := String.mk message_text,
                prio := prioExtract (String.mk message_text),
                grip := gripExtract (String.mk message_text),
                capcodes := capcodes } }

/-! ### The backoff computation -/

/-- `min(30, fail_counter * 3)` — the backoff delay computed in `main`'s
teardown block. -/
def sleep_time (fail_counter : Nat) : Nat := min 30 (fail_counter * 3)

/-! ### The control loop of `main`

`main` is a sequential loop; its impure observations are supplied by an
explicit environment and the loop itself becomes a deterministic step
function between the points where it samples the `running` flag. -/

/-- One `readline()` outcome on the decoder stream: no data (the empty string:
the stream is idle or exhausted), a line of text, or an exception escaping
the read (the `except` branch of the inner loop). -/
inductive ReadEvent
  | empty
  | line (s : String)
  | fatal
deriving DecidableEq, Repr

/-- The observable actions of `main`, in program order. -/
inductive Action
  | readAttempt
  | publish (s : String)
  | killRtl
  | killMulti
  | closeConn
  | sleepBackoff (secs : Nat)
  | sleepRetry
  | sleepPoll
  | connectAttempt
  | startDecoder
  | serviceStopped
deriving DecidableEq, Repr

/-- The control locations of `main` at which the `running` flag is sampled,
plus the terminal location. -/
inductive Loc
  | outerLoop
  | connectLoop
  | readLoop
  | stopped
deriving DecidableEq, Repr

/-- The environment of `main`: index `k` is the k-th time the given
observation is made.  `flag k` is the value of `running` at its k-th
sampling; `connectOk k` tells whether the k-th `pika.BlockingConnection`
attempt succeeds; `reads k` is the k-th `readline()` outcome; `publishOk k`
whether the k-th `basic_publish` succeeds; `alive k` gives, at the k-th
teardown, whether `rtl_proc` and `multi_proc` are still alive
(`poll() is None`) and the connection still open (`conn.is_open`). -/
structure Env where
  flag : Nat → Bool
  connectOk : Nat → Bool
  reads : Nat → ReadEvent
  publishOk : Nat → Bool
  alive : Nat → Bool × Bool × Bool

/-- The interpreter state: the control location, `fail_counter`, and how many
observations of each kind have been consumed. -/
structure Config where
  loc : Loc
  fail_counter : Nat
  nFlag : Nat
  nConn : Nat
  nRead : Nat
  nPub : Nat
  nTear : Nat
deriving DecidableEq, Repr

/-- The state of `main` just after `fail_counter = 0`, at the top of the
outer `while running` loop. -/
def initConfig : Config :=
  { loc := Loc.outerLoop, fail_counter := 0,
    nFlag := 0, nConn := 0, nRead := 0, nPub := 0, nTear := 0 }

/-- A line the inner loop discards after `strip()`: blank, or the multimon-ng
startup banner. -/
def skipLine (s : String) : Bool :=
  (pyStrip s.data).isEmpty || leadsWith "Enabled demodulators:".data (pyStrip s.data)

/-- The `finally` block of the inner loop with the counter already bumped to
`newCounter`: kill `rtl_proc` and `multi_proc` if still alive, close the
connection if still open, sleep the backoff `min(30, fail_counter * 3)`. -/
def teardownActs (aliveInfo : Bool × Bool × Bool) (newCounter : Nat) : List Action :=
  (if aliveInfo.1 then [Action.killRtl] else []) ++
  (if aliveInfo.2.1 then [Action.killMulti] else []) ++
  (if aliveInfo.2.2 then [Action.closeConn] else []) ++
  [Action.sleepBackoff (sleep_time newCounter)]

/-- One step of `main`, from one sampling of the `running` flag to the next,
returning the actions performed along the way.

* At the top of the outer loop: a false flag leaves the loop and stops.
* Inside `connect_rabbit`: a false flag returns `(None, None)` and `main`
  breaks to the stopped state; otherwise one connection attempt is made,
  retrying after `time.sleep(5)` on failure and starting the decoder pair
  on success.
* At the top of the inner read loop: a false flag exits the loop but the
  `finally` block still runs the full teardown (kills, close, backoff
  sleep) before control returns to the outer loop; otherwise one
  `readline()` is consumed — no data sleeps `0.1` and retries, a blank or
  banner line is discarded, any other line is parsed and published, and a
  failed publish breaks into the teardown, as does a fatal read error. -/
def step (env : Env) (cfg : Config) : List Action × Config :=
  match cfg.loc with
  | Loc.stopped => ([], cfg)
  | Loc.outerLoop =>
    if env.flag cfg.nFlag then
      ([], { cfg with
         loc := Loc.connectLoop
         nFlag := cfg.nFlag + 1 })
    else
      ([Action.serviceStopped], { cfg with
         loc := Loc.stopped
         nFlag := cfg.nFlag + 1 })
  | Loc.connectLoop =>
    if env.flag cfg.nFlag then
      if env.connectOk cfg.nConn then
        ([Action.connectAttempt, Action.startDecoder],
         { cfg with
         loc := Loc.readLoop
         nFlag := cfg.nFlag + 1
         nConn := cfg.nConn + 1 })
      else
        ([Action.connectAttempt, Action.sleepRetry],
         { cfg with
         nFlag := cfg.nFlag + 1
         nConn := cfg.nConn + 1 })
    else
      ([Action.serviceStopped], { cfg with
         loc := Loc.stopped
         nFlag := cfg.nFlag + 1 })
  | Loc.readLoop =>
    if env.flag cfg.nFlag then
      match env.reads cfg.nRead with
      | ReadEvent.empty =>
        ([Action.readAttempt, Action.sleepPoll],
         { cfg with
         nFlag := cfg.nFlag + 1
         nRead := cfg.nRead + 1 })
      | ReadEvent.line s =>
        if skipLine s then
          ([Action.readAttempt],
           { cfg with
         nFlag := cfg.nFlag + 1
         nRead := cfg.nRead + 1 })
        else if env.publishOk cfg.nPub then
          ([Action.readAttempt, Action.publish (String.mk (pyStrip s.data))],
           { cfg with
         nFlag := cfg.nFlag + 1
         nRead := cfg.nRead + 1
         nPub := cfg.nPub + 1 })
        else
          ([Action.readAttempt, Action.publish (String.mk (pyStrip s.data))] ++
             teardownActs (env.alive cfg.nTear) (cfg.fail_counter + 1),
           { cfg with
         loc := Loc.outerLoop
         fail_counter := cfg.fail_counter + 1
         nFlag := cfg.nFlag + 1
         nRead := cfg.nRead + 1
         nPub := cfg.nPub + 1
         nTear := cfg.nTear + 1 })
      | ReadEvent.fatal =>
        ([Action.readAttempt] ++ teardownActs (env.alive cfg.nTear) (cfg.fail_counter + 1),
         { cfg with
         loc := Loc.outerLoop
         fail_counter := cfg.fail_counter + 1
         nFlag := cfg.nFlag + 1
         nRead := cfg.nRead + 1
         nTear := cfg.nTear + 1 })
    else
      (teardownActs (env.alive cfg.nTear) (cfg.fail_counter + 1),
       { cfg with
         loc := Loc.outerLoop
         fail_counter := cfg.fail_counter + 1
         nFlag := cfg.nFlag + 1
         nTear := cfg.nTear + 1 })

/-- Run `n` steps, accumulating the action trace. -/
def run (env : Env) (cfg : Config) : Nat → List Action × Config
  | 0 => ([], cfg)
  | n + 1 =>
    let p := step env cfg
    let q := run env p.2 n
    (p.1 ++ q.1, q.2)

/-- Is an action a backoff sleep (the marker of one completed teardown)? -/
def isBackoff : Action → Bool
  | Action.sleepBackoff _ => true
  | _ => false

/-- The number of teardowns recorded in a trace. -/
def countTeardowns (l : List Action) : Nat := (l.filter isBackoff).length

end Pi2000

namespace Pi2000

/-! ### Claims about the parser and the backoff -/

/-- C3: the backoff delay computed after a failure equals `min(cap, counter *
unit)` with cap 30 and unit 3; consequently it is monotone non-decreasing in
the counter and never exceeds the cap 30. -/
theorem C3_backoff :
    (∀ c : Nat, sleep_time c = min 30 (c * 3)) ∧
    (∀ c1 c2 : Nat, c1 ≤ c2 → sleep_time c1 ≤ sleep_time c2) ∧
    (∀ c : Nat, sleep_time c ≤ 30) := by
  refine ⟨fun c => rfl, fun c1 c2 h => ?_, fun c => min_le_left _ _⟩
  exact min_le_min le_rfl (Nat.mul_le_mul_right 3 h)

/-- Witness for C3 at concrete counters. -/
theorem C3_backoff_witness :
    sleep_time 2 ≤ sleep_time 7 ∧ sleep_time 100 ≤ 30 :=
  ⟨C3_backoff.2.1 2 7 (by decide), C3_backoff.2.2 100⟩

/-- C4: an input line with fewer than 7 delimiter-separated fields parses to a
record whose message is the original line verbatim, whose priority, escalation
level and source timestamp are null, and whose recipient-code list is empty,
for any stamped id and capture time. -/
theorem C4_short_line (freshId : String) (nowUnix : Int) (nowIso : String)
    (line : String) (h : (splitPipe line.data).length < 7) :
    (parse_flex_line freshId nowUnix nowIso line).data.message = line ∧
    (parse_flex_line freshId nowUnix nowIso line).data.prio = none ∧
    (parse_flex_line freshId nowUnix nowIso line).data.grip = none ∧
    (parse_flex_line freshId nowUnix nowIso line).raw_flex_timestamp = none ∧
    (parse_flex_line freshId nowUnix nowIso line).data.capcodes = [] := by
  simp [parse_flex_line, h]

/-- Witness for C4 on the spec's scenario line `"garbage no delimiters"`,
which contains a whitespace-separated shape but no delimiter. -/
theorem C4_short_line_witness :
    (parse_flex_line "u" 0 "t" "garbage no delimiters").data.message =
      "garbage no delimiters" ∧
    (parse_flex_line "u" 0 "t" "garbage no delimiters").data.prio = none ∧
    (parse_flex_line "u" 0 "t" "garbage no delimiters").data.grip = none ∧
    (parse_flex_line "u" 0 "t" "garbage no delimiters").raw_flex_timestamp = none ∧
    (parse_flex_line "u" 0 "t" "garbage no delimiters").data.capcodes = [] :=
  C4_short_line "u" 0 "t" "garbage no delimiters" (by decide)

/-- C5: an input line with at least 7 delimiter-separated fields parses to a
record whose source timestamp is field 1 (0-based), whose message is fields 5
onwards rejoined with the delimiter and stripped, and whose recipient-code
list is the whitespace-split token list of field 4 in order, empty when field
4 is blank. -/
theorem C5_long_line (freshId : String) (nowUnix : Int) (nowIso : String)
    (line : String) (h : 7 ≤ (splitPipe line.data).length) :
    (parse_flex_line freshId nowUnix nowIso line).raw_flex_timestamp =
      some (String.mk ((splitPipe line.data).getD 1 [])) ∧
    (parse_flex_line freshId nowUnix nowIso line).data.message =
      String.mk (pyStrip (joinPipe ((splitPipe line.data).drop 5))) ∧
    (pyStrip ((splitPipe line.data).getD 4 []) = [] →
      (parse_flex_line freshId nowUnix nowIso line).data.capcodes = []) ∧
    (pyStrip ((splitPipe line.data).getD 4 []) ≠ [] →
      (parse_flex_line freshId nowUnix nowIso line).data.capcodes =
        (pySplitWs ((splitPipe line.data).getD 4 [])).map String.mk) := by
  have h' : ¬ (splitPipe line.data).length < 7 := by omega
  have hcap : (parse_flex_line freshId nowUnix nowIso line).data.capcodes =
      if pyStrip ((splitPipe line.data).getD 4 []) ≠ [] then
        (pySplitWs ((splitPipe line.data).getD 4 [])).map String.mk
      else [] := by
    simp [parse_flex_line, h']
  refine ⟨by simp [parse_flex_line, h'], by simp [parse_flex_line, h'], ?_, ?_⟩
  · intro hemp
    rw [hcap, if_neg (not_not_intro hemp)]
  · intro hne
    rw [hcap, if_pos hne]

/-- Witness for C5 on a concrete 7-field line with two capcodes. -/
theorem C5_long_line_witness :
    (parse_flex_line "u" 0 "t" "FLEX|ts|001|ALN|12 34|X| Y ").raw_flex_timestamp =
      some (String.mk ((splitPipe ("FLEX|ts|001|ALN|12 34|X| Y ").data).getD 1 [])) ∧
    (parse_flex_line "u" 0 "t" "FLEX|ts|001|ALN|12 34|X| Y ").data.message =
      String.mk (pyStrip (joinPipe ((splitPipe ("FLEX|ts|001|ALN|12 34|X| Y ").data).drop 5))) ∧
    (pyStrip ((splitPipe ("FLEX|ts|001|ALN|12 34|X| Y ").data).getD 4 []) = [] →
      (parse_flex_line "u" 0 "t" "FLEX|ts|001|ALN|12 34|X| Y ").data.capcodes = []) ∧
    (pyStrip ((splitPipe ("FLEX|ts|001|ALN|12 34|X| Y ").data).getD 4 []) ≠ [] →
      (parse_flex_line "u" 0 "t" "FLEX|ts|001|ALN|12 34|X| Y ").data.capcodes =
        (pySplitWs ((splitPipe ("FLEX|ts|001|ALN|12 34|X| Y ").data).getD 4 [])).map String.mk) :=
  C5_long_line "u" 0 "t" "FLEX|ts|001|ALN|12 34|X| Y " (by decide)

/-- C7: the spec's scenario line parses to priority `"A1"`, recipient codes
`["1234567"]` and message `"A1 B1|Test message body"`. -/
theorem C7_scenario :
    (parse_flex_line "u" 0 "t"
      "FLEX|2024-01-01 12:00:00|001000000|ALN|1234567|A1 B1|Test message body").data.prio =
        some "A1" ∧
    (parse_flex_line "u" 0 "t"
      "FLEX|2024-01-01 12:00:00|001000000|ALN|1234567|A1 B1|Test message body").data.capcodes =
        ["1234567"] ∧
    (parse_flex_line "u" 0 "t"
      "FLEX|2024-01-01 12:00:00|001000000|ALN|1234567|A1 B1|Test message body").data.message =
        "A1 B1|Test message body" := by
  decide

/-- C9 (as stated) is false on the code: `parse_flex_line` stamps a freshly
generated `uuid.uuid4()` into each record (uniqueness is required of it), so
two invocations on the same line return records that differ in `id` even when
the capture times coincide. -/
theorem C9_counterexample :
    parse_flex_line "5f0c1e9a-1111-4aaa-8aaa-000000000001" 1700000000
        "2023-11-14T22:13:20+00:00" "x" ≠
      parse_flex_line "5f0c1e9a-2222-4bbb-9bbb-000000000002" 1700000000
        "2023-11-14T22:13:20+00:00" "x" := by
  decide

/-- C9 amended: the parser is deterministic in its line apart from the
stamped fields — for every line, two invocations agree on the protocol tag,
the raw line, the extracted source timestamp and the whole payload (message,
priority, escalation, recipient codes); only `id` and the capture timestamps
may differ, by design. -/
theorem C9_pure_modulo_stamps (id1 id2 : String) (u1 u2 : Int)
    (i1 i2 : String) (line : String) :
    (parse_flex_line id1 u1 i1 line).data = (parse_flex_line id2 u2 i2 line).data ∧
    (parse_flex_line id1 u1 i1 line).raw = (parse_flex_line id2 u2 i2 line).raw ∧
    (parse_flex_line id1 u1 i1 line).protocol =
      (parse_flex_line id2 u2 i2 line).protocol ∧
    (parse_flex_line id1 u1 i1 line).raw_flex_timestamp =
      (parse_flex_line id2 u2 i2 line).raw_flex_timestamp := by
  by_cases hc : (splitPipe line.data).length < 7 <;> simp [parse_flex_line, hc]

end Pi2000

namespace Pi2000

/-! ### Helper lemmas about the control loop -/

/-- Membership in a teardown action list: exactly the conditional kills, the
conditional close, and the unconditional backoff sleep. -/
theorem mem_teardownActs (info : Bool × Bool × Bool) (c : Nat) (a : Action) :
    a ∈ teardownActs info c ↔
      (a = Action.killRtl ∧ info.1 = true) ∨
      (a = Action.killMulti ∧ info.2.1 = true) ∨
      (a = Action.closeConn ∧ info.2.2 = true) ∨
      a = Action.sleepBackoff (sleep_time c) := by
  obtain ⟨x, y, z⟩ := info
  cases x <;> cases y <;> cases z <;> simp [teardownActs]

/-- A teardown records exactly one backoff sleep. -/
theorem countTeardowns_teardownActs (info : Bool × Bool × Bool) (c : Nat) :
    countTeardowns (teardownActs info c) = 1 := by
  obtain ⟨x, y, z⟩ := info
  cases x <;> cases y <;> cases z <;>
    simp [teardownActs, countTeardowns, isBackoff]

/-- Teardown counting over a cons. -/
theorem countTeardowns_cons (a : Action) (l : List Action) :
    countTeardowns (a :: l) = (if isBackoff a then 1 else 0) + countTeardowns l := by
  cases hb : isBackoff a
  · simp [countTeardowns, List.filter_cons, hb]
  · simp [countTeardowns, List.filter_cons, hb]
    omega

/-- Teardown counting of the empty trace. -/
theorem countTeardowns_nil : countTeardowns [] = 0 := rfl

/-- Teardown counting is additive over traces. -/
theorem countTeardowns_append (l1 l2 : List Action) :
    countTeardowns (l1 ++ l2) = countTeardowns l1 + countTeardowns l2 := by
  simp [countTeardowns, List.filter_append]

/-- The stopped location is absorbing: no further steps act. -/
theorem run_stopped (env : Env) (cfg : Config) (h : cfg.loc = Loc.stopped) :
    ∀ n, (run env cfg n).1 = [] ∧ (run env cfg n).2 = cfg := by
  have hstep : step env cfg = ([], cfg) := by
    simp [step, h]
  intro n
  induction n with
  | zero => simp [run]
  | succ n ih => simp [run, hstep, ih]

/-- Each step changes `fail_counter` by exactly the number of teardowns it
performs. -/
theorem step_fail_counter (env : Env) (cfg : Config) :
    (step env cfg).2.fail_counter =
      cfg.fail_counter + countTeardowns (step env cfg).1 := by
  cases hl : cfg.loc
  case stopped => simp [step, hl, countTeardowns]
  case outerLoop =>
    by_cases hf : env.flag cfg.nFlag <;>
      simp [step, hl, hf, countTeardowns, isBackoff]
  case connectLoop =>
    by_cases hf : env.flag cfg.nFlag
    · by_cases hc : env.connectOk cfg.nConn <;>
        simp [step, hl, hf, hc, countTeardowns, isBackoff]
    · simp [step, hl, hf, countTeardowns, isBackoff]
  case readLoop =>
    by_cases hf : env.flag cfg.nFlag
    · cases hr : env.reads cfg.nRead
      next => simp [step, hl, hf, hr, countTeardowns, isBackoff]
      next s =>
        by_cases hs : skipLine s
        · simp [step, hl, hf, hr, hs, countTeardowns, isBackoff]
        · by_cases hp : env.publishOk cfg.nPub <;>
            simp [step, hl, hf, hr, hs, hp, isBackoff, countTeardowns_cons,
              countTeardowns_nil, countTeardowns_append, countTeardowns_teardownActs]
      next =>
        simp [step, hl, hf, hr, isBackoff, countTeardowns_cons,
          countTeardowns_nil, countTeardowns_append, countTeardowns_teardownActs]
    · simp [step, hl, hf, countTeardowns_teardownActs]

/-- Over any number of steps, `fail_counter` grows by exactly the number of
teardowns in the trace — it is never reset. -/
theorem run_fail_counter (env : Env) (cfg : Config) (n : Nat) :
    (run env cfg n).2.fail_counter =
      cfg.fail_counter + countTeardowns (run env cfg n).1 := by
  induction n generalizing cfg with
  | zero => simp [run, countTeardowns]
  | succ n ih =>
    have h1 : (run env cfg (n + 1)).1 =
        (step env cfg).1 ++ (run env (step env cfg).2 n).1 := by
      simp [run]
    have h2 : (run env cfg (n + 1)).2 = (run env (step env cfg).2 n).2 := by
      simp [run]
    rw [h1, h2, countTeardowns_append, ih (step env cfg).2]
    have := step_fail_counter env cfg
    omega

end Pi2000

namespace Pi2000

/-! ### Concrete configurations and environments -/

/-- A read-loop (RUNNING) configuration with all observation counters at
zero. -/
def readCfg : Config :=
  { loc := Loc.readLoop
    fail_counter := 0
    nFlag := 0
    nConn := 0
    nRead := 0
    nPub := 0
    nTear := 0 }

/-- A connect-loop (CONNECTING) configuration with all observation counters
at zero. -/
def connectCfg : Config :=
  { readCfg with loc := Loc.connectLoop }

/-- No shutdown request, failing connection attempts, a stream that never
yields data. -/
def idleEnv : Env :=
  { flag := fun _ => true
    connectOk := fun _ => false
    reads := fun _ => ReadEvent.empty
    publishOk := fun _ => false
    alive := fun _ => (true, true, true) }

/-- No shutdown request; the stream yields a parseable line and every publish
fails. -/
def pubFailEnv : Env :=
  { flag := fun _ => true
    connectOk := fun _ => true
    reads := fun _ => ReadEvent.line "FLEX|a|b|c|d|e|f"
    publishOk := fun _ => false
    alive := fun _ => (true, true, true) }

/-- No shutdown request; the read raises a fatal error. -/
def fatalEnv : Env :=
  { flag := fun _ => true
    connectOk := fun _ => true
    reads := fun _ => ReadEvent.fatal
    publishOk := fun _ => true
    alive := fun _ => (false, true, true) }

/-- Shutdown already requested at every sampling. -/
def stopEnv : Env :=
  { flag := fun _ => false
    connectOk := fun _ => false
    reads := fun _ => ReadEvent.empty
    publishOk := fun _ => false
    alive := fun _ => (true, true, false) }

/-! ### Claims about the control loop -/

/-- C1: when a publish fails in the RUNNING read loop, the step performs the
read and the failing publish and then exactly the teardown — killing each
subprocess still alive, closing the connection if still open, and sleeping
the computed backoff — with no further read or publish anywhere in the
teardown, and the following step re-enters the connect loop (CONNECTING)
with no intervening actions. -/
theorem C1_publish_failure (env : Env) (cfg : Config) (s : String)
    (hloc : cfg.loc = Loc.readLoop)
    (hflag : env.flag cfg.nFlag = true)
    (hread : env.reads cfg.nRead = ReadEvent.line s)
    (hskip : skipLine s = false)
    (hpub : env.publishOk cfg.nPub = false)
    (hflag2 : env.flag (cfg.nFlag + 1) = true) :
    (step env cfg).1 =
      [Action.readAttempt, Action.publish (String.mk (pyStrip s.data))] ++
        teardownActs (env.alive cfg.nTear) (cfg.fail_counter + 1) ∧
    (step env cfg).2.loc = Loc.outerLoop ∧
    ((env.alive cfg.nTear).1 = true →
      Action.killRtl ∈ teardownActs (env.alive cfg.nTear) (cfg.fail_counter + 1)) ∧
    ((env.alive cfg.nTear).2.1 = true →
      Action.killMulti ∈ teardownActs (env.alive cfg.nTear) (cfg.fail_counter + 1)) ∧
    ((env.alive cfg.nTear).2.2 = true →
      Action.closeConn ∈ teardownActs (env.alive cfg.nTear) (cfg.fail_counter + 1)) ∧
    Action.sleepBackoff (sleep_time (cfg.fail_counter + 1)) ∈
      teardownActs (env.alive cfg.nTear) (cfg.fail_counter + 1) ∧
    (∀ a ∈ teardownActs (env.alive cfg.nTear) (cfg.fail_counter + 1),
      a ≠ Action.readAttempt ∧ ∀ t, a ≠ Action.publish t) ∧
    (run env cfg 2).1 = (step env cfg).1 ∧
    (run env cfg 2).2.loc = Loc.connectLoop := by
  refine ⟨?_, ?_, ?_, ?_, ?_, ?_, ?_, ?_, ?_⟩
  · simp [step, hloc, hflag, hread, hskip, hpub]
  · simp [step, hloc, hflag, hread, hskip, hpub]
  · intro h1
    rw [mem_teardownActs]
    tauto
  · intro h2
    rw [mem_teardownActs]
    tauto
  · intro h3
    rw [mem_teardownActs]
    tauto
  · rw [mem_teardownActs]
    tauto
  · intro a ha
    rw [mem_teardownActs] at ha
    rcases ha with ⟨rfl, _⟩ | ⟨rfl, _⟩ | ⟨rfl, _⟩ | rfl <;>
      exact ⟨by simp, fun t => by simp⟩
  · simp [run, step, hloc, hflag, hread, hskip, hpub, hflag2]
  · simp [run, step, hloc, hflag, hread, hskip, hpub, hflag2]

/-- Witness for C1 at a concrete environment whose stream yields the line
`"FLEX|a|b|c|d|e|f"` and whose publish fails. -/
theorem C1_publish_failure_witness :
    (step pubFailEnv readCfg).2.loc = Loc.outerLoop ∧
    (run pubFailEnv readCfg 2).2.loc = Loc.connectLoop :=
  ⟨(C1_publish_failure pubFailEnv readCfg "FLEX|a|b|c|d|e|f" rfl rfl rfl
      (by decide) rfl rfl).2.1,
   (C1_publish_failure pubFailEnv readCfg "FLEX|a|b|c|d|e|f" rfl rfl rfl
      (by decide) rfl rfl).2.2.2.2.2.2.2.2⟩

/-- C2 formalised as stated: whenever the stream is permanently exhausted
(every read returns no data) and no shutdown is requested, the Coordinator
eventually leaves the RUNNING read loop. -/
def eventuallyLeavesRunning : Prop :=
  ∀ (env : Env) (cfg : Config), cfg.loc = Loc.readLoop →
    (∀ k, env.flag k = true) →
    (∀ k, env.reads k = ReadEvent.empty) →
    ∃ n, (run env cfg n).2.loc ≠ Loc.readLoop

/-- Under the idle environment the read loop is invariant: an empty read just
sleeps briefly and retries. -/
theorem idle_run_readLoop (cfg : Config) (h : cfg.loc = Loc.readLoop) (n : Nat) :
    (run idleEnv cfg n).2.loc = Loc.readLoop := by
  induction n generalizing cfg with
  | zero => simpa [run]
  | succ n ih =>
    have hstep : (step idleEnv cfg).2.loc = Loc.readLoop := by
      simp [step, h, idleEnv]
    have h2 : (run idleEnv cfg (n + 1)).2 = (run idleEnv (step idleEnv cfg).2 n).2 := by
      simp [run]
    rw [h2]
    exact ih _ hstep

/-- C2 (as stated) is false on the code: when the decoder pair dies, its
output pipe merely reaches end-of-stream, `readline()` returns the empty
string without raising, and the inner loop treats that as "no data yet" —
sleeping 0.1 s and retrying forever.  The subprocesses are never polled from
the read loop, so the Coordinator can stay in RUNNING for every step count. -/
theorem C2_counterexample : ¬ eventuallyLeavesRunning := by
  intro hcl
  obtain ⟨n, hn⟩ := hcl idleEnv readCfg rfl (fun _ => rfl) (fun _ => rfl)
  exact hn (idle_run_readLoop readCfg rfl n)

/-- C2 amended: only an exception escaping the read (a fatal read error)
makes the Coordinator leave RUNNING — the very next step runs the full
teardown and returns to the outer loop; a read that merely returns no data
(including permanent end-of-stream after a decoder crash) keeps the
Coordinator in the RUNNING read loop, sleeping briefly and retrying. -/
theorem C2_fatal_vs_exhausted (env : Env) (cfg : Config)
    (hloc : cfg.loc = Loc.readLoop)
    (hflag : env.flag cfg.nFlag = true) :
    (env.reads cfg.nRead = ReadEvent.fatal →
      (step env cfg).2.loc = Loc.outerLoop ∧
      (step env cfg).1 = Action.readAttempt ::
        teardownActs (env.alive cfg.nTear) (cfg.fail_counter + 1)) ∧
    (env.reads cfg.nRead = ReadEvent.empty →
      (step env cfg).2.loc = Loc.readLoop ∧
      (step env cfg).1 = [Action.readAttempt, Action.sleepPoll]) := by
  constructor <;> intro hr <;> constructor <;> simp [step, hloc, hflag, hr]

/-- Witness for the amended C2 at concrete environments: a fatal read leaves
the loop, an empty read does not. -/
theorem C2_fatal_vs_exhausted_witness :
    (step fatalEnv readCfg).2.loc = Loc.outerLoop ∧
    (step idleEnv readCfg).2.loc = Loc.readLoop :=
  ⟨((C2_fatal_vs_exhausted fatalEnv readCfg rfl rfl).1 rfl).1,
   ((C2_fatal_vs_exhausted idleEnv readCfg rfl rfl).2 rfl).1⟩

/-- C8: while the flag stays true a failed connection attempt costs exactly
one attempt and one fixed retry sleep per iteration, so the flag is
re-sampled within one retry interval; once the flag is sampled false in the
connect loop, the step makes no connection attempt, `connect_rabbit` returns
`(None, None)`, `main` breaks to the stopped state, and no further actions
of any kind ever occur. -/
theorem C8_shutdown_in_connect (env : Env) (cfg : Config)
    (hloc : cfg.loc = Loc.connectLoop) :
    (env.flag cfg.nFlag = true → env.connectOk cfg.nConn = false →
      (step env cfg).1 = [Action.connectAttempt, Action.sleepRetry] ∧
      (step env cfg).2.loc = Loc.connectLoop) ∧
    (env.flag cfg.nFlag = false →
      (step env cfg).1 = [Action.serviceStopped] ∧
      (step env cfg).2.loc = Loc.stopped ∧
      (∀ n, (run env cfg (n + 1)).1 = [Action.serviceStopped] ∧
        (run env cfg (n + 1)).2.loc = Loc.stopped)) := by
  constructor
  · intro hf hc
    constructor <;> simp [step, hloc, hf, hc]
  · intro hf
    have h1 : (step env cfg).1 = [Action.serviceStopped] := by
      simp [step, hloc, hf]
    have h2 : (step env cfg).2.loc = Loc.stopped := by
      simp [step, hloc, hf]
    refine ⟨h1, h2, fun n => ?_⟩
    have habs := run_stopped env (step env cfg).2 h2 n
    have hr1 : (run env cfg (n + 1)).1 =
        (step env cfg).1 ++ (run env (step env cfg).2 n).1 := by
      simp [run]
    have hr2 : (run env cfg (n + 1)).2 = (run env (step env cfg).2 n).2 := by
      simp [run]
    constructor
    · rw [hr1, habs.1, h1]
      simp
    · rw [hr2, habs.2, h2]

/-- Witness for C8: a retrying iteration under a true flag, and a stop with
no further connect attempts under a false flag. -/
theorem C8_shutdown_in_connect_witness :
    (step idleEnv connectCfg).1 = [Action.connectAttempt, Action.sleepRetry] ∧
    (run stopEnv connectCfg 5).1 = [Action.serviceStopped] ∧
    (run stopEnv connectCfg 5).2.loc = Loc.stopped :=
  ⟨((C8_shutdown_in_connect idleEnv connectCfg rfl).1 rfl rfl).1,
   (((C8_shutdown_in_connect stopEnv connectCfg rfl).2 rfl).2.2 4).1,
   (((C8_shutdown_in_connect stopEnv connectCfg rfl).2 rfl).2.2 4).2⟩

/-- C10: the failure counter starts at zero and, over any number of steps,
equals its initial value plus the number of teardowns in the trace — it is
incremented by every teardown and never reset, so the backoff depends on the
total number of teardowns over the process lifetime; on the shutdown path
out of the RUNNING loop the teardown (with its backoff sleep) still runs
before the loop exits to the stopped state; and from the tenth teardown on
the delay is pinned at the 30-second cap. -/
theorem C10_fail_counter_total :
    initConfig.fail_counter = 0 ∧
    (∀ (env : Env) (cfg : Config) (n : Nat),
      (run env cfg n).2.fail_counter =
        cfg.fail_counter + countTeardowns (run env cfg n).1) ∧
    (∀ (env : Env) (cfg : Config), cfg.loc = Loc.readLoop →
      env.flag cfg.nFlag = false →
      (step env cfg).1 = teardownActs (env.alive cfg.nTear) (cfg.fail_counter + 1) ∧
      Action.sleepBackoff (sleep_time (cfg.fail_counter + 1)) ∈ (step env cfg).1 ∧
      (step env cfg).2.fail_counter = cfg.fail_counter + 1 ∧
      (env.flag (cfg.nFlag + 1) = false → (run env cfg 2).2.loc = Loc.stopped)) ∧
    (∀ c, 10 ≤ c → sleep_time c = 30) := by
  refine ⟨rfl, run_fail_counter, ?_, ?_⟩
  · intro env cfg hloc hf
    have h1 : (step env cfg).1 =
        teardownActs (env.alive cfg.nTear) (cfg.fail_counter + 1) := by
      simp [step, hloc, hf]
    refine ⟨h1, ?_, ?_, ?_⟩
    · rw [h1, mem_teardownActs]
      tauto
    · simp [step, hloc, hf]
    · intro hf2
      simp [run, step, hloc, hf, hf2]
  · intro c hc
    unfold sleep_time
    exact min_eq_left (by omega)

/-- Witness for C10 at concrete runs: three idle steps keep the counter in
step with the trace, a shutdown out of RUNNING increments it and still
reaches the stopped state, and the delay at counter 12 is the cap. -/
theorem C10_fail_counter_total_witness :
    (run idleEnv readCfg 3).2.fail_counter =
      readCfg.fail_counter + countTeardowns (run idleEnv readCfg 3).1 ∧
    (step stopEnv readCfg).2.fail_counter = readCfg.fail_counter + 1 ∧
    (run stopEnv readCfg 2).2.loc = Loc.stopped ∧
    sleep_time 12 = 30 :=
  ⟨C10_fail_counter_total.2.1 idleEnv readCfg 3,
   (C10_fail_counter_total.2.2.1 stopEnv readCfg rfl rfl).2.2.1,
   (C10_fail_counter_total.2.2.1 stopEnv readCfg rfl rfl).2.2.2 rfl,
   C10_fail_counter_total.2.2.2 12 (by decide)⟩

end Pi2000

namespace Pi2000

/-! ### Case-insensitivity infrastructure for the priority pattern

`key` case-folds a character's code; two characters are ASCII case-variants
exactly when their keys agree.  A mirror of the priority matcher is defined
directly on key lists, and the matcher is shown to factor through it: the
search outcome depends only on the case-folded image of the input. -/

/-- Word-character status is invariant under case folding. -/
theorem wordCharN_lcn (n : Nat) : wordCharN (lcn n) = wordCharN n := by
  unfold lcn
  split
  · unfold wordCharN
    rw [decide_eq_decide]
    omega
  · rfl

/-- Whitespace status is invariant under case folding. -/
theorem spaceN_lcn (n : Nat) : spaceN (lcn n) = spaceN n := by
  unfold lcn
  split
  · unfold spaceN
    rw [decide_eq_decide]
    omega
  · rfl

/-- The `[1-2]` test is invariant under case folding. -/
theorem dig12N_lcn (n : Nat) : dig12N (lcn n) = dig12N n := by
  unfold lcn
  split
  · unfold dig12N
    rw [decide_eq_decide]
    omega
  · rfl

/-- The `[1-3]` test is invariant under case folding. -/
theorem dig13N_lcn (n : Nat) : dig13N (lcn n) = dig13N n := by
  unfold lcn
  split
  · unfold dig13N
    rw [decide_eq_decide]
    omega
  · rfl

/-- The `[1-5]` test is invariant under case folding. -/
theorem dig15N_lcn (n : Nat) : dig15N (lcn n) = dig15N n := by
  unfold lcn
  split
  · unfold dig15N
    rw [decide_eq_decide]
    omega
  · rfl

/-- Equality with the digit `1` (code 49) is invariant under case folding. -/
theorem lcn_eq49 (n : Nat) : lcn n = 49 ↔ n = 49 := by
  unfold lcn
  split <;> omega

/-- The word-character status of the character before the current position
(false at the start of the string). -/
def optWord : Option Char → Bool
  | none => false
  | some c => isWordChar c

/-- The key-folded image of an alternative's result. -/
def pmapK (x : List Char × List Char) : List Nat × List Nat :=
  (x.1.map key, x.2.map key)

/-- The end-of-match word boundary on key lists. -/
def endBoundaryK : List Nat → Bool
  | [] => true
  | n :: _ => !(wordCharN n)

/-- Alternative `A[1-2]` on key lists. -/
def altAK : List Nat → Option (List Nat × List Nat)
  | n1 :: n2 :: rest =>
    if n1 = 97 ∧ dig12N n2 ∧ endBoundaryK rest then some ([n1, n2], rest) else none
  | _ => none

/-- Alternative `B1` on key lists. -/
def altBK : List Nat → Option (List Nat × List Nat)
  | n1 :: n2 :: rest =>
    if n1 = 98 ∧ n2 = 49 ∧ endBoundaryK rest then some ([n1, n2], rest) else none
  | _ => none

/-- Alternative `P[1-3]` on key lists. -/
def altPK : List Nat → Option (List Nat × List Nat)
  | n1 :: n2 :: rest =>
    if n1 = 112 ∧ dig13N n2 ∧ endBoundaryK rest then some ([n1, n2], rest) else none
  | _ => none

/-- Alternative `PRIO\s?[1-5]` on key lists. -/
def altPrioNumK : List Nat → Option (List Nat × List Nat)
  | p :: r :: i :: o :: rest =>
    if p = 112 ∧ r = 114 ∧ i = 105 ∧ o = 111 then
      match rest with
      | c :: d :: rest2 =>
        if spaceN c ∧ dig15N d ∧ endBoundaryK rest2 then
          some ([p, r, i, o, c, d], rest2)
        else if dig15N c ∧ endBoundaryK (d :: rest2) then
          some ([p, r, i, o, c], d :: rest2)
        else none
      | [c] => if dig15N c then some ([p, r, i, o, c], []) else none
      | [] => none
    else none
  | _ => none

/-- The full alternation on key lists. -/
def prioAltsK (l : List Nat) : Option (List Nat × List Nat) :=
  match altAK l with
  | some m => some m
  | none =>
    match altBK l with
    | some m => some m
    | none =>
      match altPK l with
      | some m => some m
      | none => altPrioNumK l

/-- The search on key lists, carrying the word-character status of the
previous position. -/
def searchPrioK (pw : Bool) (l : List Nat) : Option (List Nat) :=
  match l with
  | [] => none
  | n :: rest =>
    if (pw != wordCharN n) = true then
      match prioAltsK (n :: rest) with
      | some (m, _) => some m
      | none => searchPrioK (wordCharN n) rest
    else searchPrioK (wordCharN n) rest

/-- The word-character test factors through the key. -/
theorem isWordChar_key (c : Char) : isWordChar c = wordCharN (key c) := by
  unfold isWordChar key
  rw [wordCharN_lcn]

/-- The end boundary factors through case folding. -/
theorem endBoundary_keyK (l : List Char) :
    endBoundary l = endBoundaryK (l.map key) := by
  cases l with
  | nil => rfl
  | cons c r =>
    show (!(isWordChar c)) = (!(wordCharN (key c)))
    rw [isWordChar_key]

/-- Alternative `A[1-2]` factors through case folding. -/
theorem altA_keyK (l : List Char) :
    (altA l).map pmapK = altAK (l.map key) := by
  rcases l with _ | ⟨c1, _ | ⟨c2, rest⟩⟩
  · rfl
  · rfl
  · have e2 : dig12N c2.toNat = dig12N (key c2) := by
      unfold key
      rw [dig12N_lcn]
    have e3 : endBoundary rest = endBoundaryK (rest.map key) := endBoundary_keyK rest
    simp only [List.map_cons, altA, altAK, e2, e3]
    by_cases hC : key c1 = 97 ∧ dig12N (key c2) = true ∧ endBoundaryK (rest.map key) = true
    · simp [hC, pmapK]
    · simp [hC]

/-- Alternative `B1` factors through case folding. -/
theorem altB_keyK (l : List Char) :
    (altB l).map pmapK = altBK (l.map key) := by
  rcases l with _ | ⟨c1, _ | ⟨c2, rest⟩⟩
  · rfl
  · rfl
  · have e2 : (c2.toNat = 49) = (key c2 = 49) := by
      unfold key
      exact propext (lcn_eq49 c2.toNat).symm
    have e3 : endBoundary rest = endBoundaryK (rest.map key) := endBoundary_keyK rest
    simp only [List.map_cons, altB, altBK, e2, e3]
    by_cases hC : key c1 = 98 ∧ key c2 = 49 ∧ endBoundaryK (rest.map key) = true
    · simp [hC, pmapK]
    · simp [hC]

/-- Alternative `P[1-3]` factors through case folding. -/
theorem altP_keyK (l : List Char) :
    (altP l).map pmapK = altPK (l.map key) := by
  rcases l with _ | ⟨c1, _ | ⟨c2, rest⟩⟩
  · rfl
  · rfl
  · have e2 : dig13N c2.toNat = dig13N (key c2) := by
      unfold key
      rw [dig13N_lcn]
    have e3 : endBoundary rest = endBoundaryK (rest.map key) := endBoundary_keyK rest
    simp only [List.map_cons, altP, altPK, e2, e3]
    by_cases hC : key c1 = 112 ∧ dig13N (key c2) = true ∧ endBoundaryK (rest.map key) = true
    · simp [hC, pmapK]
    · simp [hC]

/-- Alternative `PRIO\s?[1-5]` factors through case folding. -/
theorem altPrioNum_keyK (l : List Char) :
    (altPrioNum l).map pmapK = altPrioNumK (l.map key) := by
  rcases l with _ | ⟨p, _ | ⟨r, _ | ⟨i, _ | ⟨o, rest⟩⟩⟩⟩
  · rfl
  · rfl
  · rfl
  · rfl
  · simp only [List.map_cons, altPrioNum, altPrioNumK]
    by_cases hH : key p = 112 ∧ key r = 114 ∧ key i = 105 ∧ key o = 111
    · rw [if_pos hH, if_pos hH]
      rcases rest with _ | ⟨c, _ | ⟨d, rest2⟩⟩
      · rfl
      · have e1 : dig15N c.toNat = dig15N (key c) := by
          unfold key
          rw [dig15N_lcn]
        simp only [List.map_cons, e1]
        by_cases hC : dig15N (key c) = true
        · simp [hC, pmapK]
        · simp [hC]
      · have e1 : isSpaceChar c = spaceN (key c) := by
          unfold isSpaceChar key
          rw [spaceN_lcn]
        have e2 : dig15N d.toNat = dig15N (key d) := by
          unfold key
          rw [dig15N_lcn]
        have e3 : dig15N c.toNat = dig15N (key c) := by
          unfold key
          rw [dig15N_lcn]
        have e4 : endBoundary rest2 = endBoundaryK (rest2.map key) := endBoundary_keyK rest2
        have e5 : endBoundary (d :: rest2) = endBoundaryK (key d :: rest2.map key) := by
          have := endBoundary_keyK (d :: rest2)
          simpa using this
        simp only [List.map_cons, e1, e2, e3, e4, e5]
        by_cases hC1 : spaceN (key c) = true ∧ dig15N (key d) = true ∧
            endBoundaryK (rest2.map key) = true
        · simp [hC1, pmapK]
        · by_cases hC2 : dig15N (key c) = true ∧
              endBoundaryK (key d :: rest2.map key) = true
          · simp [hC1, hC2, pmapK]
          · simp [hC1, hC2]
    · rw [if_neg hH, if_neg hH]
      rfl

/-- The alternation factors through case folding. -/
theorem prioAlts_keyK (l : List Char) :
    (prioAlts l).map pmapK = prioAltsK (l.map key) := by
  unfold prioAlts prioAltsK
  rw [← altA_keyK l, ← altB_keyK l, ← altP_keyK l, ← altPrioNum_keyK l]
  cases altA l
  · cases altB l
    · cases altP l
      · cases altPrioNum l <;> rfl
      · rfl
    · rfl
  · rfl

/-- The whole search factors through case folding: the matched text's
case-folded image is a function of the input's case-folded image. -/
theorem searchPrio_keyK (p : Option Char) (l : List Char) :
    (searchPrioFrom p l).map (List.map key) =
      searchPrioK (optWord p) (l.map key) := by
  induction l generalizing p with
  | nil => rfl
  | cons c rest ih =>
    have hb : wordBoundary p (some c) = (optWord p != wordCharN (key c)) := by
      cases p <;> simp [wordBoundary, optWord, isWordChar_key]
    simp only [List.map_cons]
    unfold searchPrioFrom searchPrioK
    simp only [hb]
    by_cases hB : (optWord p != wordCharN (key c)) = true
    · simp only [if_pos hB]
      rw [show (key c :: rest.map key) = (c :: rest).map key from by simp,
        ← prioAlts_keyK (c :: rest)]
      cases hA : prioAlts (c :: rest) with
      | none =>
        simp only [Option.map_none]
        have := ih (some c)
        rw [show optWord (some c) = wordCharN (key c) from by
          simp [optWord, isWordChar_key]] at this
        exact this
      | some mr =>
        obtain ⟨m, r⟩ := mr
        simp [pmapK]
    · simp only [if_neg hB]
      have := ih (some c)
      rw [show optWord (some c) = wordCharN (key c) from by
        simp [optWord, isWordChar_key]] at this
      exact this

end Pi2000

namespace Pi2000

/-! ### Idempotence infrastructure for the priority pattern -/

/-- A character whose key is one of the pattern's first letters is a word
character. -/
theorem isWordChar_of_keys (c : Char)
    (h : key c = 97 ∨ key c = 98 ∨ key c = 112) : isWordChar c = true := by
  unfold key lcn at h
  unfold isWordChar wordCharN
  rw [decide_eq_true_eq]
  split at h <;> omega

/-- A character whose key is `r` (114) is not a `[1-3]` digit. -/
theorem dig13N_false_of_key114 (c : Char) (h : key c = 114) :
    dig13N c.toNat = false := by
  unfold key lcn at h
  unfold dig13N
  rw [decide_eq_false_iff_not]
  split at h <;> omega

/-- `A[1-2]` cannot match when the first character's key is not `a`. -/
theorem altA_none_of_key (c : Char) (l : List Char) (h : key c ≠ 97) :
    altA (c :: l) = none := by
  cases l with
  | nil => rfl
  | cons c2 rest =>
    simp only [altA]
    rw [if_neg fun hc => h hc.1]

/-- `B1` cannot match when the first character's key is not `b`. -/
theorem altB_none_of_key (c : Char) (l : List Char) (h : key c ≠ 98) :
    altB (c :: l) = none := by
  cases l with
  | nil => rfl
  | cons c2 rest =>
    simp only [altB]
    rw [if_neg fun hc => h hc.1]

/-- `P[1-3]` cannot match when the second character is not a `[1-3]` digit. -/
theorem altP_none_of_dig (c c2 : Char) (rest : List Char)
    (h : dig13N c2.toNat = false) : altP (c :: c2 :: rest) = none := by
  simp only [altP]
  rw [if_neg]
  intro hc
  rw [hc.2.1] at h
  exact Bool.noConfusion h

/-- A successful `A[1-2]` match re-matches standing alone. -/
theorem altA_self (l m r : List Char) (h : altA l = some (m, r)) :
    altA m = some (m, []) ∧ ∃ c1 c2, m = [c1, c2] ∧ key c1 = 97 := by
  rcases l with _ | ⟨c1, _ | ⟨c2, rest⟩⟩
  · simp [altA] at h
  · simp [altA] at h
  · simp only [altA] at h
    split at h
    case isTrue hC =>
      injection h with h2
      rw [Prod.mk.injEq] at h2
      obtain ⟨h3, h4⟩ := h2
      subst h3
      refine ⟨?_, c1, c2, rfl, hC.1⟩
      simp only [altA]
      rw [if_pos ⟨hC.1, hC.2.1, rfl⟩]
    case isFalse _ => exact absurd h (by simp)

/-- A successful `B1` match re-matches standing alone. -/
theorem altB_self (l m r : List Char) (h : altB l = some (m, r)) :
    altB m = some (m, []) ∧ ∃ c1 c2, m = [c1, c2] ∧ key c1 = 98 := by
  rcases l with _ | ⟨c1, _ | ⟨c2, rest⟩⟩
  · simp [altB] at h
  · simp [altB] at h
  · simp only [altB] at h
    split at h
    case isTrue hC =>
      injection h with h2
      rw [Prod.mk.injEq] at h2
      obtain ⟨h3, h4⟩ := h2
      subst h3
      refine ⟨?_, c1, c2, rfl, hC.1⟩
      simp only [altB]
      rw [if_pos ⟨hC.1, hC.2.1, rfl⟩]
    case isFalse _ => exact absurd h (by simp)

/-- A successful `P[1-3]` match re-matches standing alone. -/
theorem altP_self (l m r : List Char) (h : altP l = some (m, r)) :
    altP m = some (m, []) ∧ ∃ c1 c2, m = [c1, c2] ∧ key c1 = 112 := by
  rcases l with _ | ⟨c1, _ | ⟨c2, rest⟩⟩
  · simp [altP] at h
  · simp [altP] at h
  · simp only [altP] at h
    split at h
    case isTrue hC =>
      injection h with h2
      rw [Prod.mk.injEq] at h2
      obtain ⟨h3, h4⟩ := h2
      subst h3
      refine ⟨?_, c1, c2, rfl, hC.1⟩
      simp only [altP]
      rw [if_pos ⟨hC.1, hC.2.1, rfl⟩]
    case isFalse _ => exact absurd h (by simp)

/-- A successful `PRIO\s?[1-5]` match re-matches standing alone. -/
theorem altPrioNum_self (l m r : List Char) (h : altPrioNum l = some (m, r)) :
    altPrioNum m = some (m, []) ∧
    ∃ p rr i o tail, m = p :: rr :: i :: o :: tail ∧
      key p = 112 ∧ key rr = 114 ∧ key i = 105 ∧ key o = 111 := by
  rcases l with _ | ⟨p, _ | ⟨rr, _ | ⟨i, _ | ⟨o, rest⟩⟩⟩⟩
  · simp [altPrioNum] at h
  · simp [altPrioNum] at h
  · simp [altPrioNum] at h
  · simp [altPrioNum] at h
  · rcases rest with _ | ⟨c, _ | ⟨d, rest2⟩⟩
    · simp [altPrioNum] at h
    · simp only [altPrioNum] at h
      split at h
      case isFalse _ => exact absurd h (by simp)
      case isTrue hH =>
        split at h
        case isFalse _ => exact absurd h (by simp)
        case isTrue hd =>
          injection h with h2
          rw [Prod.mk.injEq] at h2
          obtain ⟨h3, h4⟩ := h2
          subst h3
          refine ⟨?_, p, rr, i, o, [c], rfl, hH.1, hH.2.1, hH.2.2.1, hH.2.2.2⟩
          simp only [altPrioNum]
          rw [if_pos hH, if_pos hd]
    · simp only [altPrioNum] at h
      split at h
      case isFalse _ => exact absurd h (by simp)
      case isTrue hH =>
        split at h
        case isTrue hC1 =>
          injection h with h2
          rw [Prod.mk.injEq] at h2
          obtain ⟨h3, h4⟩ := h2
          subst h3
          refine ⟨?_, p, rr, i, o, [c, d], rfl, hH.1, hH.2.1, hH.2.2.1, hH.2.2.2⟩
          simp only [altPrioNum]
          rw [if_pos hH, if_pos ⟨hC1.1, hC1.2.1, rfl⟩]
        case isFalse hC1 =>
          split at h
          case isFalse _ => exact absurd h (by simp)
          case isTrue hC2 =>
            injection h with h2
            rw [Prod.mk.injEq] at h2
            obtain ⟨h3, h4⟩ := h2
            subst h3
            refine ⟨?_, p, rr, i, o, [c], rfl, hH.1, hH.2.1, hH.2.2.1, hH.2.2.2⟩
            simp only [altPrioNum]
            rw [if_pos hH, if_pos hC2.1]

/-- A successful alternation match re-matches standing alone, and starts with
a word character. -/
theorem prioAlts_self (l m r : List Char) (h : prioAlts l = some (m, r)) :
    prioAlts m = some (m, []) ∧ ∃ c cs, m = c :: cs ∧ isWordChar c = true := by
  unfold prioAlts at h
  cases hA : altA l with
  | some mr =>
    rw [hA] at h
    injection h with h2
    subst h2
    obtain ⟨hAm, c1, c2, hm, hk⟩ := altA_self l m r hA
    refine ⟨?_, ?_⟩
    · unfold prioAlts
      rw [hAm]
    · subst hm
      exact ⟨c1, [c2], rfl, isWordChar_of_keys c1 (Or.inl hk)⟩
  | none =>
    rw [hA] at h
    cases hB : altB l with
    | some mr =>
      rw [hB] at h
      injection h with h2
      subst h2
      obtain ⟨hBm, c1, c2, hm, hk⟩ := altB_self l m r hB
      subst hm
      refine ⟨?_, c1, [c2], rfl, isWordChar_of_keys c1 (Or.inr (Or.inl hk))⟩
      unfold prioAlts
      rw [altA_none_of_key c1 [c2] (by omega), hBm]
    | none =>
      rw [hB] at h
      cases hP : altP l with
      | some mr =>
        rw [hP] at h
        injection h with h2
        subst h2
        obtain ⟨hPm, c1, c2, hm, hk⟩ := altP_self l m r hP
        subst hm
        refine ⟨?_, c1, [c2], rfl, isWordChar_of_keys c1 (Or.inr (Or.inr hk))⟩
        unfold prioAlts
        rw [altA_none_of_key c1 [c2] (by omega),
          altB_none_of_key c1 [c2] (by omega), hPm]
      | none =>
        rw [hP] at h
        obtain ⟨hNm, p, rr, i, o, tail, hm, hk1, hk2, hk3, hk4⟩ :=
          altPrioNum_self l m r h
        subst hm
        refine ⟨?_, p, rr :: i :: o :: tail, rfl,
          isWordChar_of_keys p (Or.inr (Or.inr hk1))⟩
        unfold prioAlts
        rw [altA_none_of_key p _ (by omega),
          altB_none_of_key p _ (by omega),
          altP_none_of_dig p rr _ (dig13N_false_of_key114 rr hk2), hNm]

/-- Any successful search result is a successful alternation match somewhere
in the input. -/
theorem searchPrio_sound (p : Option Char) (l m : List Char)
    (h : searchPrioFrom p l = some m) :
    ∃ l' r, prioAlts l' = some (m, r) := by
  induction l generalizing p with
  | nil => simp [searchPrioFrom] at h
  | cons c rest ih =>
    unfold searchPrioFrom at h
    by_cases hb : wordBoundary p (some c) = true
    · rw [if_pos hb] at h
      cases hA : prioAlts (c :: rest) with
      | some mr =>
        obtain ⟨mm, rr⟩ := mr
        rw [hA] at h
        simp only [] at h
        injection h with h2
        subst h2
        exact ⟨c :: rest, rr, hA⟩
      | none =>
        rw [hA] at h
        exact ih (some c) h
    · rw [if_neg hb] at h
      exact ih (some c) h

end Pi2000

namespace Pi2000

/-- C6: priority extraction is case-insensitive and idempotent.  For inputs
equal up to ASCII letter case (equal case-folded images), the extraction
finds a match on one exactly when it finds one on the other, and the matched
texts agree up to case; and for every priority value the extraction can
produce, extracting from that value alone yields it again unchanged. -/
theorem C6_prio_case_idem :
    (∀ s t : String, s.data.map key = t.data.map key →
      (prioExtract s).map (fun q => q.data.map key) =
        (prioExtract t).map (fun q => q.data.map key) ∧
      (prioExtract s).isSome = (prioExtract t).isSome) ∧
    (∀ s q : String, prioExtract s = some q → prioExtract q = some q) := by
  constructor
  · intro s t hst
    have h1 : (searchPrioFrom none s.data).map (List.map key) =
        (searchPrioFrom none t.data).map (List.map key) := by
      rw [searchPrio_keyK, searchPrio_keyK, hst]
    constructor
    · unfold prioExtract
      rw [Option.map_map, Option.map_map]
      exact h1
    · have h2 := congrArg Option.isSome h1
      unfold prioExtract
      simpa using h2
  · intro s q hq
    unfold prioExtract at hq
    obtain ⟨m, hm, hmk⟩ := Option.map_eq_some'.mp hq
    subst hmk
    obtain ⟨l', r, hAlts⟩ := searchPrio_sound none s.data m hm
    obtain ⟨hSelf, c, cs, hmc, hw⟩ := prioAlts_self l' m r hAlts
    unfold prioExtract
    show (searchPrioFrom none (String.mk m).data).map String.mk =
      some (String.mk m)
    have hdata : (String.mk m).data = m := rfl
    rw [hdata]
    subst hmc
    unfold searchPrioFrom
    rw [show wordBoundary none (some c) = true from by
      simp [wordBoundary, hw]]
    rw [if_pos rfl, hSelf]
    rfl

/-- Witness for C6: a lower/upper-case pair agrees on match presence, and a
concretely extracted priority `"A1"` re-extracts to itself. -/
theorem C6_prio_case_idem_witness :
    (prioExtract "call b1 now").isSome = (prioExtract "CALL B1 NOW").isSome ∧
    prioExtract "A1" = some "A1" :=
  ⟨(C6_prio_case_idem.1 "call b1 now" "CALL B1 NOW" (by decide)).2,
   C6_prio_case_idem.2 "go A1 now" "A1" (by decide)⟩

end Pi2000
